import Mathlib

/-!
Verification development for the report-generation pipeline
(`main.py`, `agents/extract_generic.py`, `agents/generate/base.py`).

The Python runtime values that flow through the pipeline (YAML configs,
extracted field values, the nested extracted namespace) are modelled by
`PyVal`.  Python `dict`s are modelled by ordered association lists
(`Dict`), matching Python's insertion-order semantics: assigning to an
existing key keeps its position, assigning to a fresh key appends.
-/

set_option autoImplicit false

namespace ReportGen

/-- Model of the Python values handled by the pipeline: `None`, strings,
numbers (ints and floats, modelled exactly as rationals), lists and
string-keyed dicts. -/
inductive PyVal where
  | none : PyVal
  | str : String → PyVal
  | num : ℚ → PyVal
  | list : List PyVal → PyVal
  | dict : List (String × PyVal) → PyVal

mutual

/-- Decidable equality for `PyVal` (the `deriving` handler does not support
this nested inductive). -/
def PyVal.decEq : (a b : PyVal) → Decidable (a = b)
  | .none, .none => isTrue rfl
  | .str a, .str b =>
    if h : a = b then isTrue (by rw [h]) else isFalse (by intro hh; injection hh; contradiction)
  | .num a, .num b =>
    if h : a = b then isTrue (by rw [h]) else isFalse (by intro hh; injection hh; contradiction)
  | .list xs, .list ys =>
    match PyVal.decEqList xs ys with
    | isTrue h => isTrue (by rw [h])
    | isFalse h => isFalse (by intro hh; injection hh; contradiction)
  | .dict xs, .dict ys =>
    match PyVal.decEqDict xs ys with
    | isTrue h => isTrue (by rw [h])
    | isFalse h => isFalse (by intro hh; injection hh; contradiction)
  | .none, .str _ => isFalse (fun h => PyVal.noConfusion h)
  | .none, .num _ => isFalse (fun h => PyVal.noConfusion h)
  | .none, .list _ => isFalse (fun h => PyVal.noConfusion h)
  | .none, .dict _ => isFalse (fun h => PyVal.noConfusion h)
  | .str _, .none => isFalse (fun h => PyVal.noConfusion h)
  | .str _, .num _ => isFalse (fun h => PyVal.noConfusion h)
  | .str _, .list _ => isFalse (fun h => PyVal.noConfusion h)
  | .str _, .dict _ => isFalse (fun h => PyVal.noConfusion h)
  | .num _, .none => isFalse (fun h => PyVal.noConfusion h)
  | .num _, .str _ => isFalse (fun h => PyVal.noConfusion h)
  | .num _, .list _ => isFalse (fun h => PyVal.noConfusion h)
  | .num _, .dict _ => isFalse (fun h => PyVal.noConfusion h)
  | .list _, .none => isFalse (fun h => PyVal.noConfusion h)
  | .list _, .str _ => isFalse (fun h => PyVal.noConfusion h)
  | .list _, .num _ => isFalse (fun h => PyVal.noConfusion h)
  | .list _, .dict _ => isFalse (fun h => PyVal.noConfusion h)
  | .dict _, .none => isFalse (fun h => PyVal.noConfusion h)
  | .dict _, .str _ => isFalse (fun h => PyVal.noConfusion h)
  | .dict _, .num _ => isFalse (fun h => PyVal.noConfusion h)
  | .dict _, .list _ => isFalse (fun h => PyVal.noConfusion h)

/-- Decidable equality for lists of `PyVal`. -/
def PyVal.decEqList : (xs ys : List PyVal) → Decidable (xs = ys)
  | [], [] => isTrue rfl
  | [], _ :: _ => isFalse (fun h => List.noConfusion h)
  | _ :: _, [] => isFalse (fun h => List.noConfusion h)
  | x :: xs, y :: ys =>
    match PyVal.decEq x y with
    | isFalse h => isFalse (by intro hh; injection hh; contradiction)
    | isTrue h1 =>
      match PyVal.decEqList xs ys with
      | isTrue h2 => isTrue (by rw [h1, h2])
      | isFalse h => isFalse (by intro hh; injection hh; contradiction)

/-- Decidable equality for string-keyed association lists of `PyVal`. -/
def PyVal.decEqDict : (xs ys : List (String × PyVal)) → Decidable (xs = ys)
  | [], [] => isTrue rfl
  | [], _ :: _ => isFalse (fun h => List.noConfusion h)
  | _ :: _, [] => isFalse (fun h => List.noConfusion h)
  | (k, v) :: xs, (k', v') :: ys =>
    if hk : k = k' then
      match PyVal.decEq v v' with
      | isFalse h =>
        isFalse (by intro hh; injection hh with h1 h2; exact h (congrArg Prod.snd h1))
      | isTrue h1 =>
        match PyVal.decEqDict xs ys with
        | isTrue h2 => isTrue (by rw [hk, h1, h2])
        | isFalse h => isFalse (by intro hh; injection hh; contradiction)
    else
      isFalse (by intro hh; injection hh with h1 h2; exact hk (congrArg Prod.fst h1))

end

instance : DecidableEq PyVal := PyVal.decEq

/-- A Python dict with string keys, as an insertion-ordered association list. -/
abbrev Dict := List (String × PyVal)

/-- `d[k]` / `k in d`: first binding of `k`, if any.  (Keys are unique in any
dict produced by the model, as in Python.) -/
def dictLookup {α : Type} (d : List (String × α)) (k : String) : Option α :=
  match d with
  | [] => Option.none
  | (k', v) :: rest => if k' = k then some v else dictLookup rest k

/-- `d[k] = v`: replace in place if `k` is present, else append (Python
insertion-order semantics). -/
def dictSet {α : Type} (d : List (String × α)) (k : String) (v : α) : List (String × α) :=
  match d with
  | [] => [(k, v)]
  | (k', v') :: rest => if k' = k then (k', v) :: rest else (k', v') :: dictSet rest k v

/-- Python truthiness for the modelled values. -/
def pyTruthy : PyVal → Bool
  | .none => false
  | .str s => !s.isEmpty
  | .num q => q ≠ 0
  | .list xs => !xs.isEmpty
  | .dict d => !d.isEmpty

/-- `v is None`. -/
def PyVal.isNone : PyVal → Bool
  | .none => true
  | _ => false

/-- `isinstance(v, dict)`. -/
def PyVal.isDict : PyVal → Bool
  | .dict _ => true
  | _ => false

/-- `str(v)` for the scalar values the pipeline coerces.  Containers are
rendered in a simplified canonical form (no claim evaluates `str` on a
container); numbers are rendered as their rational normal form. -/
def pyStr : PyVal → String
  | .none => "None"
  | .str s => s
  | .num q => toString q
  | .list _ => "<list>"
  | .dict _ => "<dict>"

/-- Splitting a character list at `.`, keeping empty pieces; the empty input
yields one empty piece, as in Python. -/
def splitDotList : List Char → List (List Char)
  | [] => [[]]
  | c :: rest =>
    if c = '.' then [] :: splitDotList rest
    else
      match splitDotList rest with
      | s :: ss => (c :: s) :: ss
      | [] => [[c]]

/-- `path.split(".")` — Python `str.split` with a non-empty separator keeps
empty pieces and maps `""` to `[""]`. -/
def splitDot (path : String) : List String :=
  (splitDotList path.data).map (fun cs => String.mk cs)

/-- Inner loop of `resolve` (`main.py`), one dotted segment at a time:
`if isinstance(cur, dict) and part in cur: cur = cur[part] else: return
None if strict else default`. -/
def resolveGo (parts : List String) (cur : PyVal) (default : PyVal) (strict : Bool) : PyVal :=
  match parts with
  | [] => cur
  | p :: rest =>
    match cur with
    | .dict m =>
      match dictLookup m p with
      | some v => resolveGo rest v default strict
      | Option.none => if strict then .none else default
    | _ => if strict then .none else default

/-- `resolve(path, data, default, strict)` from `main.py`: walk the dotted
path through the nested namespace. -/
def resolve (path : String) (data : Dict) (default : PyVal) (strict : Bool) : PyVal :=
  resolveGo (splitDot path) (.dict data) default strict

/-- Spec-side characterisation of a fully-present path: `some v` iff every
segment is present (each intermediate value a keyed mapping containing the
next identifier), where `v` is the stored value. -/
def resolveSegs (parts : List String) (cur : PyVal) : Option PyVal :=
  match parts with
  | [] => some cur
  | p :: rest =>
    match cur with
    | .dict m =>
      match dictLookup m p with
      | some v => resolveSegs rest v
      | Option.none => Option.none
    | _ => Option.none

/-- Inner loop of `ensure_path_set` (`main.py`): descend creating / replacing
intermediate nodes (`if p not in cur or not isinstance(cur[p], dict):
cur[p] = {}`), then assign the last segment. -/
def ensureGo (cur : Dict) (parts : List String) (value : PyVal) : Dict :=
  match parts with
  | [] => cur
  | [last] => dictSet cur last value
  | p :: rest =>
    let sub : Dict :=
      match dictLookup cur p with
      | some (.dict m) => m
      | _ => []
    dictSet cur p (.dict (ensureGo sub rest value))

/-- `ensure_path_set(data, path, value)` from `main.py`.  (`path.split(".")`
is never empty, so the `[]` case of `ensureGo` is unreachable.) -/
def ensure_path_set (data : Dict) (path : String) (value : PyVal) : Dict :=
  ensureGo data (splitDot path) value

/-! ## Type coercion (`coerce_types` in `main.py`) -/

/-- The whitespace characters stripped by Python `str.strip()`. -/
def isPySpace (c : Char) : Bool :=
  c = ' ' || c = '\t' || c = '\n' || c = '\r' || c = '\x0b' || c = '\x0c'

/-- Python `s.strip()`. -/
def pyStrip (s : String) : String :=
  String.mk (((s.data.dropWhile isPySpace).reverse.dropWhile isPySpace).reverse)

/-- Python `s.replace(t, "")` for a one-character target `t`: removes every
occurrence. -/
def removeChar (t : Char) (s : String) : String :=
  String.mk (s.data.filter (fun c => c ≠ t))

/-- Python `s.endswith("%")`. -/
def endsWithPercent (s : String) : Bool :=
  s.data.getLast? = some '%'

/-- Value of a digit run. -/
def digitsToNat (ds : List Char) : ℕ :=
  ds.foldl (fun a c => 10 * a + (c.toNat - 48)) 0

/-- Python `float(s)` on the decimal grammar `[+|-] digits [. digits] [e
[+|-] digits]` (also `.5`, `5.`), with the result represented exactly as a
rational.  `inf`/`nan` spellings and digit-group underscores, which Python
also accepts, are outside the model: no configuration exercised here
produces them. -/
def parseFloat (s : String) : Option ℚ :=
  let cs := s.data
  let signRest : ℤ × List Char :=
    match cs with
    | '+' :: r => (1, r)
    | '-' :: r => (-1, r)
    | r => (1, r)
  let cs1 := signRest.2
  let ip := cs1.takeWhile Char.isDigit
  let cs2 := cs1.dropWhile Char.isDigit
  let fracRest : List Char × List Char :=
    match cs2 with
    | '.' :: r => (r.takeWhile Char.isDigit, r.dropWhile Char.isDigit)
    | r => ([], r)
  let fp := fracRest.1
  let cs3 := fracRest.2
  if ip.isEmpty && fp.isEmpty then Option.none
  else
    -- signed mantissa over a power-of-ten denominator, combined with `mkRat`
    -- (the kernel-reducible constructor of a normalised rational)
    let m : ℤ := signRest.1 * ((digitsToNat ip * 10 ^ fp.length + digitsToNat fp : ℕ) : ℤ)
    let den : ℕ := 10 ^ fp.length
    match cs3 with
    | [] => some (mkRat m den)
    | e :: r =>
      if e = 'e' || e = 'E' then
        let esignRest : Bool × List Char :=
          match r with
          | '+' :: r2 => (true, r2)
          | '-' :: r2 => (false, r2)
          | r2 => (true, r2)
        let ed := esignRest.2.takeWhile Char.isDigit
        let r2 := esignRest.2.dropWhile Char.isDigit
        if ed.isEmpty || !r2.isEmpty then Option.none
        else some (if esignRest.1 then mkRat (m * 10 ^ digitsToNat ed) den
                   else mkRat m (den * 10 ^ digitsToNat ed))
      else Option.none

/-- `x / 100.0`, exactly, via the kernel-reducible `Rat.divInt`. -/
def divideBy100 (x : ℚ) : ℚ :=
  Rat.divInt x.num (x.den * 100)

/-- The `SYS_LOG` warning line emitted when a `number` conversion fails. -/
def coerceFailMsg (sheet k typ : String) : String :=
  "[COERCE-FAIL] " ++ sheet ++ "." ++ k ++ " type " ++ typ ++ " failed"

/-- The `try:` body of one field of `coerce_types` (`main.py`): returns the
coerced value together with the `SYS_LOG` warning line emitted when a
`number` conversion fails (`[COERCE-FAIL] ...`).  The `number` branch is the
only one whose Python code can raise (via `float`); the `array[string]` and
string branches are total. -/
def coerceField (sheet k typ : String) (v : PyVal) (percent_as_fraction : Bool) :
    PyVal × Option String :=
  if typ = "number" then
    let s0 := pyStrip (pyStr v)
    let is_percent := endsWithPercent s0
    let s := pyStrip (removeChar '%' (removeChar ',' s0))
    match parseFloat s with
    | some n =>
      (.num (if is_percent then (if percent_as_fraction then divideBy100 n else n) else n),
       Option.none)
    | Option.none =>
      (.none, some (coerceFailMsg sheet k typ))
  else if typ = "array[string]" then
    match v with
    | .list xs => (.list (xs.map (fun x => .str (pyStr x))), Option.none)
    | _ => (.list [.str (pyStr v)], Option.none)
  else
    (.str (pyStr v), Option.none)

/-- The body of one iteration of the `coerce_types` loop (`main.py`):
`v = values.get(k, None); if v is None: out[k] = None` else the `try:` body,
returning the coerced value and the optional `SYS_LOG` warning line.  Named
separately so that field independence can be stated. -/
def coerceOne (sheet k typ : String) (values : Dict) (percent_as_fraction : Bool) :
    PyVal × Option String :=
  match dictLookup values k with
  | Option.none => (.none, Option.none)
  | some v =>
    if v.isNone then (.none, Option.none)
    else coerceField sheet k typ v percent_as_fraction

/-- `coerce_types(sheet, values, type_spec, percent_as_fraction)` from
`main.py`: one output binding per declared field, in declaration order, plus
the `SYS_LOG` warning lines in emission order.  `type_spec` is a Python
dict, so its keys are unique and each `out[k] = ...` assignment is a fresh
insertion in iteration order, modelled as a cons. -/
def coerce_types (sheet : String) (values : Dict) (type_spec : List (String × String))
    (percent_as_fraction : Bool) : Dict × List String :=
  match type_spec with
  | [] => ([], [])
  | (k, typ) :: rest =>
    let fieldRes := coerceOne sheet k typ values percent_as_fraction
    let restRes := coerce_types sheet values rest percent_as_fraction
    ((k, fieldRes.1) :: restRes.1, fieldRes.2.toList ++ restRes.2)

/-! ## Agents (`agents/extract_generic.py`, `agents/generate/base.py`) -/

namespace GenericExtractor

/-- Result handling of `GenericExtractor.extract` (`agents/extract_generic.py`),
given the parsed `arguments` of the tool calls returned by the completion
service: when at least one tool call is present the loop returns the first
one's arguments on its first iteration; when there are none
(`tool_calls` empty or absent) the function falls off the end and returns
Python `None`, modelled as `Option.none`. -/
def extract (tool_call_args : List Dict) : Option Dict :=
  match tool_call_args with
  | args :: _ => some args
  | [] => Option.none

end GenericExtractor

/-- `extractor.extract() or {}` at the `run_pipeline` call site: a falsy
result (`None`, or an empty dict) is replaced by a fresh empty dict. -/
def pyOrEmptyDict (o : Option Dict) : Dict :=
  match o with
  | some m => if m.isEmpty then [] else m
  | Option.none => []

namespace GenericParagraphGenerator

/-- `GenericParagraphGenerator.generate` (`agents/generate/base.py`) returns
`resp.choices[0].message.content.strip()`: the completion text, trimmed. -/
def generate (content : String) : String :=
  pyStrip content

end GenericParagraphGenerator

/-! ## Error collector (`ErrorCollector` in `main.py`) -/

/-- One record of `ErrorCollector.items`: `{"level": .., "where": .., "msg":
.., "detail"?: ..}`.  The `where` key is named `whereTag` here (`where` is a
Lean keyword). -/
structure DiagRec where
  level : String
  whereTag : String
  msg : String
  detail : Option String
  deriving DecidableEq, Repr

/-- `ErrorCollector.add`: append one record (logging mirrors the record and
adds no state).  A falsy `detail` is not stored; the model keeps it as an
`Option`. -/
def ecAdd (items : List DiagRec) (level whereTag msg : String) (detail : Option String) :
    List DiagRec :=
  items ++ [⟨level, whereTag, msg, detail⟩]

/-! ## Configuration pre-validation (`validate_configs` in `main.py`) -/

/-- Python type names, as they appear in `AttributeError` / `TypeError`
messages.  The model does not distinguish `int` from `float`. -/
def pyTypeName : PyVal → String
  | .none => "NoneType"
  | .str _ => "str"
  | .num _ => "num"
  | .list _ => "list"
  | .dict _ => "dict"

/-- Filesystem facts consulted by `validate_configs`: template existence and
prompt-file existence.  (A truthy non-string prompt value would already
crash Python's path joining; no claim exercises that, and the oracle absorbs
the join.) -/
structure VEnv where
  tplExists : Bool
  promptExists : PyVal → Bool

/-- The validator's accumulated outcome: the diagnostics it appended and the
two components of `planned_skips`. -/
structure VState where
  ec : List DiagRec
  skipSheets : List String
  skipParas : List String
  deriving DecidableEq

/-- `set.add`: idempotent insertion. -/
def setAdd (l : List String) (s : String) : List String :=
  if l.contains s then l else l ++ [s]

/-- `t in ("string", "number", "array[string]")` for a declared type value. -/
def typeSupported (t : PyVal) : Bool :=
  t = PyVal.str "string" || t = PyVal.str "number" || t = PyVal.str "array[string]"

/-- Fold a fallible check over a list, propagating the first uncaught
exception (`validate_configs` has no handler around its loops). -/
def foldExcept {α : Type} (f : VState → α → Except String VState) : VState → List α →
    Except String VState
  | st, [] => .ok st
  | st, x :: xs =>
    match f st x with
    | .error e => .error e
    | .ok st' => foldExcept f st' xs

/-- `(v or {}).items()`: a falsy value iterates as empty; a truthy non-dict
raises `AttributeError` on `.items()`. -/
def orEmptyItems (v : PyVal) : Except String (List (String × PyVal)) :=
  if !pyTruthy v then .ok []
  else
    match v with
    | .dict m => .ok m
    | _ => .error ("AttributeError: " ++ pyTypeName v ++ " object has no attribute items")

/-- One iteration of the sheet-task check loop of `validate_configs`
(`main.py`): non-mapping config → warn and plan a skip; missing prompt →
warn, skip, continue; absent prompt file → warn and skip; illegal or empty
`keys` → warn and skip — and then, with no `continue` guarding it, the
Python code iterates `keys.items()`, which raises `AttributeError` whenever
`keys` is present but not a mapping. -/
def checkSheetEntry (env : VEnv) (st : VState) (sname : String) (cfg : PyVal) :
    Except String VState :=
  match cfg with
  | .dict c =>
    let p_rel := (dictLookup c "prompt").getD .none
    if !pyTruthy p_rel then
      let ec' := ecAdd st.ec "warn" "CONFIG" ("sheet " ++ sname ++ " missing prompt, will skip")
        Option.none
      .ok { st with ec := ec', skipSheets := setAdd st.skipSheets sname }
    else
      let st1 :=
        if !env.promptExists p_rel then
          let ec' := ecAdd st.ec "warn" "CONFIG"
            ("sheet " ++ sname ++ " prompt file does not exist, will skip") Option.none
          { st with ec := ec', skipSheets := setAdd st.skipSheets sname }
        else st
      let keys := (dictLookup c "keys").getD (.dict [])
      let keysOk : Bool := match keys with | .dict m => !m.isEmpty | _ => false
      let st2 :=
        if !keysOk then
          let ec' := ecAdd st1.ec "warn" "CONFIG"
            ("sheet " ++ sname ++ " keys illegal or empty, will skip") Option.none
          { st1 with ec := ec', skipSheets := setAdd st1.skipSheets sname }
        else st1
      match keys with
      | .dict m =>
        .ok (m.foldl (fun s kt =>
          if typeSupported kt.2 then s
          else
            let ec' := ecAdd s.ec "warn" "CONFIG"
              ("sheet " ++ sname ++ "." ++ kt.1 ++ " unsupported type, treated as string")
              Option.none
            { s with ec := ec' }) st2)
      | _ => .error ("AttributeError: " ++ pyTypeName keys ++ " object has no attribute items")
  | _ =>
    let ec' := ecAdd st.ec "warn" "CONFIG" ("sheet " ++ sname ++ " config not an object, will skip")
      Option.none
    .ok { st with ec := ec', skipSheets := setAdd st.skipSheets sname }

/-- One iteration of the paragraph-task check loop of `validate_configs`
(`main.py`). -/
def checkParaEntry (env : VEnv) (st : VState) (pid : String) (task : PyVal) :
    Except String VState :=
  match task with
  | .dict t =>
    let modeV := (dictLookup t "mode").getD .none
    let mode : PyVal :=
      if pyTruthy modeV then modeV
      else .str (if (dictLookup t "prompt").isSome then "generate" else "fill")
    if !(mode = PyVal.str "generate" || mode = PyVal.str "fill") then
      let ec' := ecAdd st.ec "warn" "CONFIG"
        ("paragraph " ++ pid ++ " mode not generate or fill, will skip") Option.none
      .ok { st with ec := ec', skipParas := setAdd st.skipParas pid }
    else
      let keysV := (dictLookup t "keys").getD (.list [])
      let keysIsList : Bool := match keysV with | .list _ => true | _ => false
      let st1 :=
        if pyTruthy keysV && !keysIsList then
          let ec' := ecAdd st.ec "warn" "CONFIG"
            ("paragraph " ++ pid ++ " keys not a list, keys ignored") Option.none
          { st with ec := ec' }
        else st
      -- `keys = []` when truthy-non-list; `keys or []` iterates as empty when falsy
      let keys : List PyVal := match keysV with | .list xs => xs | _ => []
      let p_rel := (dictLookup t "prompt").getD .none
      if mode = PyVal.str "generate" && !pyTruthy p_rel then
        let ec' := ecAdd st1.ec "warn" "CONFIG"
          ("paragraph " ++ pid ++ " missing prompt, will skip") Option.none
        .ok { st1 with ec := ec', skipParas := setAdd st1.skipParas pid }
      else
        let st2 :=
          if mode = PyVal.str "generate" && !env.promptExists p_rel then
            let ec' := ecAdd st1.ec "warn" "CONFIG"
              ("paragraph " ++ pid ++ " prompt file does not exist, will skip") Option.none
            { st1 with ec := ec', skipParas := setAdd st1.skipParas pid }
          else st1
        -- `for k in keys or []: if "." not in k: warn` — `in` on a
        -- non-string element raises `TypeError`
        foldExcept (fun s k =>
          match k with
          | .str ks =>
            if ks.data.contains '.' then .ok s
            else
              let ec' := ecAdd s.ec "warn" "CONFIG"
                ("paragraph " ++ pid ++ " key lacks path separator: " ++ ks) Option.none
              .ok { s with ec := ec' }
          | _ => .error ("TypeError: argument of type " ++ pyTypeName k ++ " is not iterable"))
          st2 keys
  | _ =>
    let ec' := ecAdd st.ec "warn" "CONFIG"
      ("paragraph " ++ pid ++ " config not an object, will skip") Option.none
    .ok { st with ec := ec', skipParas := setAdd st.skipParas pid }

/-- `validate_configs(config_dir, sheet_cfg, paragraphs, xls, ec)` from
`main.py`: template check, sheet-task checks over `(sheet_cfg or {})`,
Excel-alignment check over `sheet_cfg.keys()` (unguarded: raises
`AttributeError` when `sheet_cfg` is `None` or another non-dict), and
paragraph-task checks over `(paragraphs or {})`.  `.error` models an
exception escaping the function. -/
def validate_configs (env : VEnv) (sheet_cfg paragraphs : PyVal)
    (xls_sheet_names : List String) : Except String VState := do
  let st0 : VState := ⟨[], [], []⟩
  let st1 :=
    if !env.tplExists then
      { st0 with ec := ecAdd st0.ec "error" "CONFIG" "template does not exist" Option.none }
    else st0
  let sheetItems ← orEmptyItems sheet_cfg
  let st2 ← foldExcept (fun s kv => checkSheetEntry env s kv.1 kv.2) st1 sheetItems
  let cfgNames ← (match sheet_cfg with
    | .dict m => .ok (m.map Prod.fst)
    | _ => .error ("AttributeError: " ++ pyTypeName sheet_cfg ++ " object has no attribute keys"))
  let st3 := cfgNames.foldl (fun s n =>
    if xls_sheet_names.contains n then s
    else
      let ec' := ecAdd s.ec "warn" "CONFIG"
        ("Excel has no sheet " ++ n ++ ", sheet will be skipped") Option.none
      { s with ec := ec', skipSheets := setAdd s.skipSheets n }) st2
  let paraItems ← orEmptyItems paragraphs
  foldExcept (fun s kv => checkParaEntry env s kv.1 kv.2) st3 paraItems

/-! ## Extraction phase (step 4 of `run_pipeline` in `main.py`) -/

/-- Sheet-task configuration after validation: per sheet name, the declared
field/type mapping (`cfg["keys"]`), in configuration order.  The prompt and
provider entries only feed the extractor construction, which the completion
oracle absorbs. -/
abbrev SheetCfg := List (String × List (String × String))

/-- Pipeline state threaded through the extraction loop: the extracted
namespace, the error collector, and the `SYS_LOG` warning lines emitted by
`coerce_types`. -/
structure EState where
  extracted : Dict
  ec : List DiagRec
  sysWarns : List String
  deriving DecidableEq

/-- One iteration of the extraction loop (`for sheet in xls.sheet_names`).
An unconfigured or skip-planned sheet is passed over.  The oracle stands
for the fallible prefix of the `try` block — `xls.parse`, extractor
construction and `extract()` — returning the raw extraction result
(`Option.none` for Python `None`); `.error` models any exception, caught and
recorded as an error tagged `EXTRACT:<sheet>`.  On success the raw values are
normalised by `or {}`, coerced, and the sheet inserted. -/
def extractSheetStep (sheet_cfg : SheetCfg) (oracle : String → Except String (Option Dict))
    (plannedSheets : List String) (st : EState) (sheet : String) : EState :=
  match dictLookup sheet_cfg sheet with
  | Option.none => st
  | some keysSpec =>
    if plannedSheets.contains sheet then st
    else
      match oracle sheet with
      | .error e =>
        let ec' := ecAdd st.ec "error" ("EXTRACT:" ++ sheet) ("extraction failed: " ++ e) (some e)
        { st with ec := ec' }
      | .ok rawOpt =>
        let raw := pyOrEmptyDict rawOpt
        let res := coerce_types sheet raw keysSpec true
        { st with extracted := dictSet st.extracted sheet (.dict res.1),
                  sysWarns := st.sysWarns ++ res.2 }

/-- The whole extraction loop, over the workbook's sheet list
(`xls.sheet_names`), starting from state `st0` (`extracted = {}` plus the
diagnostics accumulated so far). -/
def run_extraction (sheet_cfg : SheetCfg) (oracle : String → Except String (Option Dict))
    (plannedSheets : List String) (st0 : EState) (sheet_names : List String) : EState :=
  sheet_names.foldl (extractSheetStep sheet_cfg oracle plannedSheets) st0

/-! ## Paragraph phase (step 5 of `run_pipeline` in `main.py`) -/

/-- One paragraph task as the pipeline loop consumes it: the paragraph id,
the resolved mode — `task.get("mode") or ("generate" if "prompt" in task
else "fill")` — and the declared dependency paths `task.get("keys", [])`.
(Validation skips tasks that are not mappings and ignores non-list `keys`.) -/
structure ParaTask where
  pid : String
  mode : String
  keys : List String
  deriving DecidableEq, Repr

/-- Pipeline state threaded through the paragraph loop: the shared extracted
namespace, the generated-text mapping `gen_ctx`, and the error collector. -/
structure PState where
  extracted : Dict
  gen_ctx : Dict
  ec : List DiagRec
  deriving DecidableEq

/-- One iteration of the paragraph loop.  A skip-planned paragraph is passed
over.  `missing` collects the declared paths whose strict resolution is
`None`.  In `generate` mode a non-empty `missing` records one warning and
skips the paragraph; otherwise the generation oracle — generator
construction plus the completion call, applied to the paragraph id and the
entire extracted namespace (`context = extracted`) — either yields the
completion text, stored trimmed under the paragraph id, or models a caught
exception recorded as an error tagged `PARA:<id>`.  Any other mode falls to
the `fill` branch, which injects the default `"-"` at each missing path and
records one warning per injection. -/
def paragraphStep (genOracle : String → Dict → Except String String)
    (plannedParas : List String) (st : PState) (task : ParaTask) : PState :=
  if plannedParas.contains task.pid then st
  else
    let missing := task.keys.filter (fun k => (resolve k st.extracted .none true).isNone)
    if !missing.isEmpty && task.mode == "generate" then
      let ec' := ecAdd st.ec "warn" ("PARA:" ++ task.pid) "missing fields, generation skipped"
        Option.none
      { st with ec := ec' }
    else if task.mode == "generate" then
      match genOracle task.pid st.extracted with
      | .ok content =>
        let text := GenericParagraphGenerator.generate content
        { st with gen_ctx := dictSet st.gen_ctx task.pid (.str text) }
      | .error e =>
        let ec' := ecAdd st.ec "error" ("PARA:" ++ task.pid) ("processing failed: " ++ e) (some e)
        { st with ec := ec' }
    else
      missing.foldl (fun s m =>
        let ec' := ecAdd s.ec "warn" ("FILL:" ++ task.pid)
          ("missing " ++ m ++ ", filled with default dash") Option.none
        { s with extracted := ensure_path_set s.extracted m (.str "-"), ec := ec' }) st

/-- The whole paragraph loop, in paragraph-task configuration order. -/
def run_paragraphs (genOracle : String → Dict → Except String String)
    (plannedParas : List String) (st0 : PState) (tasks : List ParaTask) : PState :=
  tasks.foldl (paragraphStep genOracle plannedParas) st0

/-! ## Dictionary lemmas -/

theorem dictLookup_dictSet_self {α : Type} (d : List (String × α)) (k : String) (v : α) :
    dictLookup (dictSet d k v) k = some v := by
  induction d with
  | nil => simp [dictSet, dictLookup]
  | cons hd tl ih =>
    obtain ⟨k', v'⟩ := hd
    by_cases h : k' = k <;> simp [dictSet, dictLookup, h, ih]

theorem dictLookup_dictSet_ne {α : Type} (d : List (String × α)) (k k' : String) (v : α)
    (h : k' ≠ k) : dictLookup (dictSet d k v) k' = dictLookup d k' := by
  induction d with
  | nil =>
    simp [dictSet, dictLookup]
    exact fun hh => h hh.symm
  | cons hd tl ih =>
    obtain ⟨k0, v0⟩ := hd
    by_cases h0 : k0 = k
    · have h2 : ¬ (k = k') := fun hh => h hh.symm
      simp [dictSet, dictLookup, h0, h2]
    · simp [dictSet, dictLookup, h0, ih]

theorem map_fst_dictSet_fresh {α : Type} (d : List (String × α)) (k : String) (v : α)
    (h : dictLookup d k = Option.none) :
    (dictSet d k v).map Prod.fst = d.map Prod.fst ++ [k] := by
  induction d with
  | nil => simp [dictSet]
  | cons hd tl ih =>
    obtain ⟨k0, v0⟩ := hd
    by_cases h0 : k0 = k
    · simp [dictLookup, h0] at h
    · simp [dictLookup, h0] at h
      simp [dictSet, h0, ih h]

theorem dictLookup_eq_none_of_not_mem {α : Type} (d : List (String × α)) (k : String)
    (h : k ∉ d.map Prod.fst) : dictLookup d k = Option.none := by
  induction d with
  | nil => simp [dictLookup]
  | cons hd tl ih =>
    obtain ⟨k0, v0⟩ := hd
    have h1 : ¬ (k0 = k) := fun hh => h (by simp [hh])
    have h2 : k ∉ tl.map Prod.fst := fun hh => h (by simp [hh])
    simp [dictLookup, h1, ih h2]

/-! ## Claim C8 — numeric coercion examples -/

/-- C8: coercing a `number` field with raw value `"85%"` yields `0.85` when
`percentAsFraction` is true and `85.0` when it is false; raw `"1,234.5"`
yields `1234.5`, with thousands separators and surrounding whitespace
stripped and the trailing percent sign detected. -/
theorem coerce_number_examples :
    coerce_types "S" [("X", .str "85%")] [("X", "number")] true
      = ([("X", .num 0.85)], [])
    ∧ coerce_types "S" [("X", .str "85%")] [("X", "number")] false
      = ([("X", .num 85.0)], [])
    ∧ coerce_types "S" [("X", .str "1,234.5")] [("X", "number")] true
      = ([("X", .num 1234.5)], [])
    ∧ coerce_types "S" [("X", .str "  1,234.5 ")] [("X", "number")] true
      = ([("X", .num 1234.5)], []) := by
  have e1 : (0.85 : ℚ) = mkRat 17 20 := by rw [Rat.mkRat_eq_div]; norm_num
  have e2 : (85.0 : ℚ) = mkRat 85 1 := by rw [Rat.mkRat_eq_div]; norm_num
  have e3 : (1234.5 : ℚ) = mkRat 2469 2 := by rw [Rat.mkRat_eq_div]; norm_num
  rw [e1, e2, e3]
  refine ⟨by decide, by decide, by decide, by decide⟩

/-! ## Claim C4 — extractor result with no tool calls -/

/-- C4 counterexample: with no tool calls, `extract()` returns Python `None`
(it falls off the end of the function), not an empty mapping as the claim
states. -/
theorem extract_returns_none_without_tool_calls :
    GenericExtractor.extract [] = Option.none
    ∧ GenericExtractor.extract [] ≠ some ([] : Dict) := by
  exact ⟨rfl, by decide⟩

/-- C4 amended: with no tool calls `extract()` returns `None`; the pipeline
call site normalises it with `or {}`, so the orchestrator proceeds with an
empty raw mapping, and coercion of an empty raw mapping binds every declared
field to `Null`. -/
theorem extract_none_normalized_at_call_site :
    GenericExtractor.extract [] = Option.none
    ∧ pyOrEmptyDict (GenericExtractor.extract []) = []
    ∧ ∀ (sheet : String) (spec : List (String × String)) (paf : Bool),
        (coerce_types sheet (pyOrEmptyDict (GenericExtractor.extract [])) spec paf).1
          = spec.map (fun kt => (kt.1, PyVal.none)) := by
  refine ⟨rfl, rfl, fun sheet spec paf => ?_⟩
  induction spec with
  | nil => rfl
  | cons hd tl ih => simpa [coerce_types, coerceOne, dictLookup] using ih

/-! ## Claim C2 — validation is supposed never to raise -/

/-- C2: the validator's own docstring promises that problems are only
recorded, never raised; yet a sheet task whose `keys` is a list reaches
`keys.items()` with no guarding `continue` and raises `AttributeError`, and
a `None` sheet-task configuration reaches the unguarded `sheet_cfg.keys()`
and raises as well.  Both runs are modelled here ending in an uncaught
exception. -/
theorem validate_configs_raises_on_malformed_config :
    validate_configs ⟨true, fun _ => true⟩
        (.dict [("S", .dict [("prompt", .str "p.txt"), ("keys", .list [.str "A"])])])
        (.dict []) ["S"]
      = .error "AttributeError: list object has no attribute items"
    ∧ validate_configs ⟨true, fun _ => true⟩ .none (.dict []) []
      = .error "AttributeError: NoneType object has no attribute keys" := by
  exact ⟨rfl, rfl⟩

/-! ## Claim C6 — path resolution -/

theorem resolveGo_of_segs_some (parts : List String) (cur v default : PyVal) (strict : Bool)
    (h : resolveSegs parts cur = some v) :
    resolveGo parts cur default strict = v := by
  induction parts generalizing cur with
  | nil =>
    simp [resolveSegs] at h
    simp [resolveGo, h]
  | cons p rest ih =>
    cases cur with
    | dict m =>
      cases hl : dictLookup m p with
      | none => simp [resolveSegs, hl] at h
      | some w =>
        simp only [resolveSegs, hl] at h
        simp only [resolveGo, hl]
        exact ih w h
    | none => simp [resolveSegs] at h
    | str s => simp [resolveSegs] at h
    | num q => simp [resolveSegs] at h
    | list xs => simp [resolveSegs] at h

theorem resolveGo_of_segs_none (parts : List String) (cur default : PyVal)
    (h : resolveSegs parts cur = Option.none) :
    resolveGo parts cur default true = .none ∧ resolveGo parts cur default false = default := by
  induction parts generalizing cur with
  | nil => simp [resolveSegs] at h
  | cons p rest ih =>
    cases cur with
    | dict m =>
      cases hl : dictLookup m p with
      | none => simp [resolveGo, hl]
      | some w =>
        simp only [resolveSegs, hl] at h
        simp only [resolveGo, hl]
        exact ih w h
    | none => simp [resolveGo]
    | str s => simp [resolveGo]
    | num q => simp [resolveGo]
    | list xs => simp [resolveGo]

/-- C6 (amended): a fully-present dotted path resolves, in both modes, to the
exact stored value — including a present leaf storing `Null`, for which
non-strict resolution returns `Null` rather than the default; a path with
any missing segment (or a non-mapping intermediate) yields `Null` in strict
mode and the supplied default in non-strict mode; and a zero-length path is
split into the single empty identifier, so it resolves the value stored
under the empty-string key, or fails, rather than returning the namespace
itself. -/
theorem resolve_characterization (path : String) (d : Dict) (default : PyVal) :
    (∀ v, resolveSegs (splitDot path) (.dict d) = some v →
      resolve path d default true = v ∧ resolve path d default false = v)
    ∧ (resolveSegs (splitDot path) (.dict d) = Option.none →
      resolve path d default true = .none ∧ resolve path d default false = default)
    ∧ (∀ strict, resolve "" d default strict =
        match dictLookup d "" with
        | some v => v
        | Option.none => if strict then PyVal.none else default) := by
  refine ⟨fun v h => ⟨resolveGo_of_segs_some _ _ _ _ _ h, resolveGo_of_segs_some _ _ _ _ _ h⟩,
          fun h => resolveGo_of_segs_none _ _ _ h, fun strict => ?_⟩
  have hsplit : splitDot "" = [""] := rfl
  rw [resolve, hsplit]
  cases hl : dictLookup d "" <;> simp [resolveGo, hl]

/-- C6 witness: a present leaf holding `Null` resolves to `Null` in both
modes (so non-strict does not substitute the default), while an absent leaf
gives the default non-strictly and `Null` strictly. -/
theorem resolve_characterization_witness :
    resolve "A.B" [("A", .dict [("B", .none)])] (.str "-") false = PyVal.none
    ∧ resolve "A.C" [("A", .dict [("B", .none)])] (.str "-") false = .str "-"
    ∧ resolve "A.C" [("A", .dict [("B", .none)])] (.str "-") true = PyVal.none := by
  have T1 := resolve_characterization "A.B" [("A", .dict [("B", .none)])] (.str "-")
  have T2 := resolve_characterization "A.C" [("A", .dict [("B", .none)])] (.str "-")
  exact ⟨(T1.1 PyVal.none (by decide)).2, (T2.2.1 (by decide)).2, (T2.2.1 (by decide)).1⟩

/-- C6 counterexample: a zero-length path does not return the current
namespace — `"".split(".")` is `[""]`, so resolution looks up the
empty-string key and fails. -/
theorem resolve_empty_path_not_namespace :
    resolve "" [("A", .str "x")] .none true = PyVal.none
    ∧ PyVal.none ≠ PyVal.dict [("A", .str "x")] := by decide

/-! ## Claim C10 — coerced key set -/

theorem coerce_types_map_fst (sheet : String) (values : Dict) (spec : List (String × String))
    (paf : Bool) :
    ((coerce_types sheet values spec paf).1).map Prod.fst = spec.map Prod.fst := by
  induction spec with
  | nil => rfl
  | cons hd tl ih =>
    obtain ⟨k, t⟩ := hd
    simp [coerce_types, ih]

theorem coerce_types_absent_is_null (sheet : String) (values : Dict)
    (spec : List (String × String)) (paf : Bool) (k t : String)
    (hmem : (k, t) ∈ spec) (habs : dictLookup values k = Option.none) :
    dictLookup (coerce_types sheet values spec paf).1 k = some PyVal.none := by
  induction spec with
  | nil => simp at hmem
  | cons hd tl ih =>
    obtain ⟨k0, t0⟩ := hd
    by_cases h0 : k0 = k
    · subst h0
      simp [coerce_types, coerceOne, dictLookup, habs]
    · have hm : (k, t) ∈ tl := by
        rcases List.mem_cons.mp hmem with h | h
        · exact absurd (congrArg Prod.fst h).symm h0
        · exact h
      simp [coerce_types, dictLookup, h0, ih hm]

/-- C10: the coerced mapping's key list is exactly the declared type
specification's key list, in declaration order; declared fields absent from
the raw values are bound to `Null`; raw fields not declared in the type
specification are dropped from the result. -/
theorem coerce_key_set (sheet : String) (values : Dict) (spec : List (String × String))
    (paf : Bool) :
    ((coerce_types sheet values spec paf).1).map Prod.fst = spec.map Prod.fst
    ∧ (∀ k t, (k, t) ∈ spec → dictLookup values k = Option.none →
        dictLookup (coerce_types sheet values spec paf).1 k = some PyVal.none)
    ∧ (∀ k, k ∉ spec.map Prod.fst →
        dictLookup (coerce_types sheet values spec paf).1 k = Option.none) := by
  refine ⟨coerce_types_map_fst sheet values spec paf,
          fun k t hm ha => coerce_types_absent_is_null sheet values spec paf k t hm ha,
          fun k hk => dictLookup_eq_none_of_not_mem _ _ ?_⟩
  rw [coerce_types_map_fst]
  exact hk

/-- C10 witness: with declared fields `A, B` and raw values for `C, A` only,
the declared-but-absent `B` is bound to `Null` and the undeclared raw `C` is
dropped. -/
theorem coerce_key_set_witness :
    dictLookup (coerce_types "S" [("C", .str "x"), ("A", .str "1")]
        [("A", "number"), ("B", "string")] true).1 "B" = some PyVal.none
    ∧ dictLookup (coerce_types "S" [("C", .str "x"), ("A", .str "1")]
        [("A", "number"), ("B", "string")] true).1 "C" = Option.none := by
  have T := coerce_key_set "S" [("C", .str "x"), ("A", .str "1")]
    [("A", "number"), ("B", "string")] true
  exact ⟨T.2.1 "B" "string" (by decide) (by decide), T.2.2 "C" (by decide)⟩

/-! ## Claim C3 — coercion-failure handling -/

theorem coerce_types_lookup (sheet : String) (values : Dict) (spec : List (String × String))
    (paf : Bool) (k t : String)
    (hnd : (spec.map Prod.fst).Nodup) (hmem : (k, t) ∈ spec) :
    dictLookup (coerce_types sheet values spec paf).1 k
      = some (coerceOne sheet k t values paf).1 := by
  induction spec with
  | nil => simp at hmem
  | cons hd tl ih =>
    obtain ⟨k0, t0⟩ := hd
    rcases List.mem_cons.mp hmem with h | h
    · cases h
      simp [coerce_types, dictLookup]
    · have hk0 : k0 ≠ k := by
        intro hh
        subst hh
        exact (List.nodup_cons.mp hnd).1 (List.mem_map.mpr ⟨(k0, t), h, rfl⟩)
      simp [coerce_types, dictLookup, hk0, ih (List.nodup_cons.mp hnd).2 h]

theorem coerce_types_warn_mem (sheet : String) (values : Dict) (spec : List (String × String))
    (paf : Bool) (k t w : String)
    (hmem : (k, t) ∈ spec) (hw : (coerceOne sheet k t values paf).2 = some w) :
    w ∈ (coerce_types sheet values spec paf).2 := by
  induction spec with
  | nil => simp at hmem
  | cons hd tl ih =>
    obtain ⟨k0, t0⟩ := hd
    rcases List.mem_cons.mp hmem with h | h
    · cases h
      simp [coerce_types, hw]
    · simp only [coerce_types, List.mem_append]
      exact Or.inr (ih h)

/-- C3 counterexample: running one sheet through the extraction step with a
`number` field whose raw value cannot be parsed leaves the run's error
collector empty — the coercion failure is only written to the system log
(`sysWarns`), so no warning `DiagnosticRecord` is appended to the collector,
contrary to the claim. -/
theorem coerce_failure_not_in_error_collector :
    (extractSheetStep [("S", [("X", "number"), ("Y", "string")])]
        (fun _ => .ok (some [("X", .str "abc"), ("Y", .str "ok")])) [] ⟨[], [], []⟩ "S").ec
      = []
    ∧ (extractSheetStep [("S", [("X", "number"), ("Y", "string")])]
        (fun _ => .ok (some [("X", .str "abc"), ("Y", .str "ok")])) [] ⟨[], [], []⟩ "S").extracted
      = [("S", .dict [("X", PyVal.none), ("Y", .str "ok")])]
    ∧ (extractSheetStep [("S", [("X", "number"), ("Y", "string")])]
        (fun _ => .ok (some [("X", .str "abc"), ("Y", .str "ok")])) [] ⟨[], [], []⟩ "S").sysWarns
      = ["[COERCE-FAIL] S.X type number failed"] := by
  refine ⟨?_, ?_, ?_⟩ <;> decide

/-- C3 (amended): coercing a declared `number` field whose raw value fails to
parse yields `Null` for that field, emits one `[COERCE-FAIL]` warning line to
the system log (not a `DiagnosticRecord` in the run's error collector), no
exception escapes (the model's coercion is total by construction), and every
other declared field of the same sheet is still coerced, its result
depending only on its own raw value. -/
theorem coerce_number_failure_handling (sheet k : String) (values : Dict) (v : PyVal)
    (spec : List (String × String)) (paf : Bool)
    (hnd : (spec.map Prod.fst).Nodup)
    (hmem : (k, "number") ∈ spec)
    (hv : dictLookup values k = some v)
    (hnn : v.isNone = false)
    (hfail : parseFloat (pyStrip (removeChar '%' (removeChar ',' (pyStrip (pyStr v)))))
      = Option.none) :
    dictLookup (coerce_types sheet values spec paf).1 k = some PyVal.none
    ∧ coerceFailMsg sheet k "number" ∈ (coerce_types sheet values spec paf).2
    ∧ (∀ k' t', (k', t') ∈ spec →
        dictLookup (coerce_types sheet values spec paf).1 k'
          = some (coerceOne sheet k' t' values paf).1) := by
  have hco : coerceOne sheet k "number" values paf
      = (PyVal.none, some (coerceFailMsg sheet k "number")) := by
    simp [coerceOne, hv, hnn, coerceField, hfail]
  refine ⟨?_, ?_, fun k' t' hm => coerce_types_lookup sheet values spec paf k' t' hnd hm⟩
  · rw [coerce_types_lookup sheet values spec paf k "number" hnd hmem, hco]
  · exact coerce_types_warn_mem sheet values spec paf k "number" _ hmem (by rw [hco])

/-- C3 witness: field `X` of sheet `S` declared `number` with raw value
`"abc"` coerces to `Null` with the warning line emitted, while field `Y` is
still coerced normally. -/
theorem coerce_number_failure_handling_witness :
    dictLookup (coerce_types "S" [("X", .str "abc"), ("Y", .str "ok")]
        [("X", "number"), ("Y", "string")] true).1 "X" = some PyVal.none
    ∧ coerceFailMsg "S" "X" "number"
        ∈ (coerce_types "S" [("X", .str "abc"), ("Y", .str "ok")]
            [("X", "number"), ("Y", "string")] true).2
    ∧ dictLookup (coerce_types "S" [("X", .str "abc"), ("Y", .str "ok")]
        [("X", "number"), ("Y", "string")] true).1 "Y"
      = some (coerceOne "S" "Y" "string" [("X", .str "abc"), ("Y", .str "ok")] true).1 := by
  have T := coerce_number_failure_handling "S" "X" [("X", .str "abc"), ("Y", .str "ok")]
    (.str "abc") [("X", "number"), ("Y", "string")] true (by decide) (by decide) (by decide)
    (by decide) (by decide)
  exact ⟨T.1, T.2.1, T.2.2 "Y" "string" (by decide)⟩

/-! ## Claim C1 — who mutates the extracted namespace -/

theorem fill_fold_extracted (pid : String) (missing : List String) (st : PState) :
    (missing.foldl (fun s m =>
        { extracted := ensure_path_set s.extracted m (.str "-"), gen_ctx := s.gen_ctx,
          ec := ecAdd s.ec "warn" ("FILL:" ++ pid)
            ("missing " ++ m ++ ", filled with default dash") Option.none : PState }) st).extracted
      = missing.foldl (fun d m => ensure_path_set d m (.str "-")) st.extracted := by
  induction missing generalizing st with
  | nil => rfl
  | cons m rest ih =>
    simp only [List.foldl_cons]
    exact ih _

theorem ensure_path_set_preserves_other_top (d : Dict) (path : String) (v : PyVal)
    (k p : String) (rest : List String) (hsplit : splitDot path = p :: rest) (hk : k ≠ p) :
    dictLookup (ensure_path_set d path v) k = dictLookup d k := by
  rw [ensure_path_set, hsplit]
  cases rest with
  | nil => exact dictLookup_dictSet_ne d p k v hk
  | cons r rs => exact dictLookup_dictSet_ne d p k _ hk

/-- C1 (amended): within the paragraph phase the extracted namespace is
mutated only by the fill-mode default-injection step — a generate-mode step
never changes it; the fill-mode step injects the dash default at exactly the
declared dependency paths whose strict resolution is `Null` (which includes
a present leaf storing `Null`); and each injection changes nothing outside
the injected path: any top-level key other than the path's first segment
keeps its binding. -/
theorem namespace_mutation_characterization
    (g : String → Dict → Except String String) (planned : List String)
    (st : PState) (task : ParaTask) :
    (task.mode = "generate" → (paragraphStep g planned st task).extracted = st.extracted)
    ∧ (planned.contains task.pid = false → task.mode ≠ "generate" →
        (paragraphStep g planned st task).extracted
          = (task.keys.filter (fun k => (resolve k st.extracted .none true).isNone)).foldl
              (fun d m => ensure_path_set d m (.str "-")) st.extracted)
    ∧ (∀ d path v k p rest, splitDot path = p :: rest → k ≠ p →
        dictLookup (ensure_path_set d path v) k = dictLookup d k) := by
  refine ⟨fun hmode => ?_, fun hp hmode => ?_, fun d path v k p rest h1 h2 =>
    ensure_path_set_preserves_other_top d path v k p rest h1 h2⟩
  · by_cases hp2 : task.pid ∈ planned
    · simp [paragraphStep, hp2]
    · by_cases hm2 : (task.keys.filter
          (fun k => (resolve k st.extracted .none true).isNone)).isEmpty
      · cases hg : g task.pid st.extracted <;> simp [paragraphStep, hp2, hm2, hmode, hg]
      · simp [paragraphStep, hp2, hm2, hmode]
  · have hp2 : task.pid ∉ planned := by simpa using hp
    have hfalse : (task.mode == "generate") = false := beq_eq_false_iff_ne.mpr hmode
    simp only [paragraphStep, List.elem_eq_mem, hp2, decide_eq_true_eq, if_neg hp2, hfalse,
      Bool.and_false, Bool.false_eq_true, if_false]
    exact fill_fold_extracted task.pid _ st

/-- C1 counterexample: the injection step does overwrite present keys — a
present leaf storing `Null` is replaced by the dash default (`resolve(...)
is None` cannot tell a stored `None` from an absent path), and a present
non-mapping intermediate value is replaced by a fresh mapping. -/
theorem fill_overwrites_present_null_leaf :
    resolveSegs (splitDot "S.F") (.dict [("S", .dict [("F", PyVal.none)])]) = some PyVal.none
    ∧ (paragraphStep (fun _ _ => .error "") []
        ⟨[("S", .dict [("F", PyVal.none)])], [], []⟩ ⟨"p1", "fill", ["S.F"]⟩).extracted
      = [("S", .dict [("F", .str "-")])]
    ∧ PyVal.str "-" ≠ PyVal.none
    ∧ (paragraphStep (fun _ _ => .error "") []
        ⟨[("S", .dict [("F", .str "x")])], [], []⟩ ⟨"p2", "fill", ["S.F.G"]⟩).extracted
      = [("S", .dict [("F", .dict [("G", .str "-")])])] := by decide

/-- C1 witness: a generate-mode step leaves the namespace unchanged; a
fill-mode step with one unresolved path produces exactly the injected
namespace; an injection leaves an unrelated top-level key intact. -/
theorem namespace_mutation_characterization_witness :
    (paragraphStep (fun _ _ => .ok "t") [] ⟨[("S", .dict [("F", .str "x")])], [], []⟩
        ⟨"g1", "generate", ["S.F"]⟩).extracted = [("S", .dict [("F", .str "x")])]
    ∧ (paragraphStep (fun _ _ => .ok "t") [] ⟨[], [], []⟩
        ⟨"f1", "fill", ["S.F"]⟩).extracted = [("S", .dict [("F", .str "-")])]
    ∧ dictLookup (ensure_path_set [("T", .str "y")] "S.F" (.str "-")) "T"
      = some (.str "y") := by
  have T1 := namespace_mutation_characterization (fun _ _ => .ok "t") []
    ⟨[("S", .dict [("F", .str "x")])], [], []⟩ ⟨"g1", "generate", ["S.F"]⟩
  have T2 := namespace_mutation_characterization (fun _ _ => .ok "t") []
    ⟨[], [], []⟩ ⟨"f1", "fill", ["S.F"]⟩
  refine ⟨T1.1 rfl, ?_, T2.2.2 [("T", .str "y")] "S.F" (.str "-") "T" "S" ["F"]
    (by decide) (by decide)⟩
  rw [T2.2.1 (by decide) (by decide)]
  decide

/-! ## Claim C5 — generate-mode paragraph handling -/

/-- C5: for a generate-mode paragraph not in the skip plan: when some
declared dependency strict-resolves to `Null`, exactly one warning record is
appended and the step's result is the same for every generation oracle (no
generator is constructed or called); when all dependencies resolve and the
completion call succeeds, the oracle is applied to the entire extracted
namespace and the trimmed completion text is stored under the paragraph id,
with the namespace and the collector untouched. -/
theorem generate_paragraph_step_behavior
    (g : String → Dict → Except String String) (planned : List String) (st : PState)
    (pid : String) (keys : List String)
    (hp : planned.contains pid = false) :
    ((keys.filter (fun k => (resolve k st.extracted .none true).isNone)) ≠ [] →
      paragraphStep g planned st ⟨pid, "generate", keys⟩
        = ⟨st.extracted, st.gen_ctx, st.ec ++ [⟨"warn", "PARA:" ++ pid, "missing fields, generation skipped", Option.none⟩]⟩)
    ∧ ((keys.filter (fun k => (resolve k st.extracted .none true).isNone)) = [] →
        ∀ content, g pid st.extracted = .ok content →
          paragraphStep g planned st ⟨pid, "generate", keys⟩
            = ⟨st.extracted, dictSet st.gen_ctx pid (.str (GenericParagraphGenerator.generate content)), st.ec⟩) := by
  have hp2 : pid ∉ planned := by simpa using hp
  constructor
  · intro hm
    have hm' : (keys.filter (fun k => (resolve k st.extracted .none true).isNone)).isEmpty
        = false := by
      simpa [List.isEmpty_iff] using hm
    simp [paragraphStep, hp2, hm', ecAdd]
  · intro hm content hg
    have hm' : (keys.filter (fun k => (resolve k st.extracted .none true).isNone)).isEmpty
        = true := by
      simpa [List.isEmpty_iff] using hm
    simp [paragraphStep, hp2, hm', hg]

/-- C5 witness: with the one dependency resolving, the oracle's text is
stored trimmed under the paragraph id; with the dependency resolving to a
stored `Null`, one warning is recorded and nothing is generated. -/
theorem generate_paragraph_step_behavior_witness :
    paragraphStep (fun _ _ => .ok "  text  ") [] ⟨[("S", .dict [("F", .str "v")])], [], []⟩
        ⟨"p", "generate", ["S.F"]⟩
      = ⟨[("S", .dict [("F", .str "v")])], [("p", .str "text")], []⟩
    ∧ paragraphStep (fun _ _ => .ok "  text  ") [] ⟨[("S", .dict [("F", PyVal.none)])], [], []⟩
        ⟨"q", "generate", ["S.F"]⟩
      = ⟨[("S", .dict [("F", PyVal.none)])], [],
         [⟨"warn", "PARA:" ++ "q", "missing fields, generation skipped", Option.none⟩]⟩ := by
  have T1 := generate_paragraph_step_behavior (fun _ _ => .ok "  text  ") []
    ⟨[("S", .dict [("F", .str "v")])], [], []⟩ "p" ["S.F"] (by decide)
  have T2 := generate_paragraph_step_behavior (fun _ _ => .ok "  text  ") []
    ⟨[("S", .dict [("F", PyVal.none)])], [], []⟩ "q" ["S.F"] (by decide)
  constructor
  · rw [T1.2 (by decide) "  text  " rfl]
    decide
  · rw [T2.1 (by decide)]
    rfl

/-! ## Claim C7 — atomic per-sheet insertion -/

theorem extractSheetStep_extracted_ne (cfg : SheetCfg)
    (oracle : String → Except String (Option Dict)) (planned : List String)
    (st : EState) (sheet s : String) (h : s ≠ sheet) :
    dictLookup (extractSheetStep cfg oracle planned st sheet).extracted s
      = dictLookup st.extracted s := by
  cases hc : dictLookup cfg sheet with
  | none => simp [extractSheetStep, hc]
  | some spec =>
    by_cases hp : sheet ∈ planned
    · simp [extractSheetStep, hc, hp]
    · cases ho : oracle sheet with
      | error e => simp [extractSheetStep, hc, hp, ho]
      | ok raw => simp [extractSheetStep, hc, hp, ho, dictLookup_dictSet_ne _ _ _ _ h]

theorem run_extraction_extracted_notmem (cfg : SheetCfg)
    (oracle : String → Except String (Option Dict)) (planned : List String)
    (st : EState) (names : List String) (s : String) (h : s ∉ names) :
    dictLookup (run_extraction cfg oracle planned st names).extracted s
      = dictLookup st.extracted s := by
  induction names generalizing st with
  | nil => rfl
  | cons n rest ih =>
    have h1 : s ≠ n := fun hh => h (hh ▸ List.mem_cons_self n rest)
    have h2 : s ∉ rest := fun hh => h (List.mem_cons_of_mem n hh)
    show dictLookup (run_extraction cfg oracle planned
      (extractSheetStep cfg oracle planned st n) rest).extracted s = dictLookup st.extracted s
    rw [ih _ h2, extractSheetStep_extracted_ne cfg oracle planned st n s h1]

theorem extractSheetStep_ec_extends (cfg : SheetCfg)
    (oracle : String → Except String (Option Dict)) (planned : List String)
    (st : EState) (sheet : String) :
    ∃ l, (extractSheetStep cfg oracle planned st sheet).ec = st.ec ++ l := by
  cases hc : dictLookup cfg sheet with
  | none => exact ⟨[], by simp [extractSheetStep, hc]⟩
  | some spec =>
    by_cases hp : sheet ∈ planned
    · exact ⟨[], by simp [extractSheetStep, hc, hp]⟩
    · cases ho : oracle sheet with
      | error e =>
        exact ⟨[⟨"error", "EXTRACT:" ++ sheet, "extraction failed: " ++ e, some e⟩],
          by simp [extractSheetStep, hc, hp, ho, ecAdd]⟩
      | ok raw => exact ⟨[], by simp [extractSheetStep, hc, hp, ho]⟩

theorem run_extraction_ec_extends (cfg : SheetCfg)
    (oracle : String → Except String (Option Dict)) (planned : List String)
    (st : EState) (names : List String) :
    ∃ l, (run_extraction cfg oracle planned st names).ec = st.ec ++ l := by
  induction names generalizing st with
  | nil => exact ⟨[], by simp [run_extraction]⟩
  | cons n rest ih =>
    obtain ⟨l1, hl1⟩ := extractSheetStep_ec_extends cfg oracle planned st n
    obtain ⟨l2, hl2⟩ := ih (extractSheetStep cfg oracle planned st n)
    refine ⟨l1 ++ l2, ?_⟩
    show (run_extraction cfg oracle planned (extractSheetStep cfg oracle planned st n) rest).ec
      = st.ec ++ (l1 ++ l2)
    rw [hl2, hl1, List.append_assoc]

/-- C7: a configured, unplanned sheet of the workbook is written to the
namespace exactly once, with the fully coerced field mapping (coercion runs
before the insertion); when the sheet's parse/extract/coerce prefix raises,
the exception is recorded as an error tagged `EXTRACT:<sheet>` and the sheet
stays entirely absent from the namespace. -/
theorem sheet_extraction_atomic_insertion (cfg : SheetCfg)
    (oracle : String → Except String (Option Dict)) (planned : List String)
    (st0 : EState) (names : List String) (sheet : String) (spec : List (String × String))
    (hnd : names.Nodup) (hmem : sheet ∈ names)
    (hcfg : dictLookup cfg sheet = some spec)
    (hpl : sheet ∉ planned)
    (h0 : dictLookup st0.extracted sheet = Option.none) :
    (∀ e, oracle sheet = .error e →
      dictLookup (run_extraction cfg oracle planned st0 names).extracted sheet = Option.none
      ∧ (⟨"error", "EXTRACT:" ++ sheet, "extraction failed: " ++ e, some e⟩ : DiagRec)
          ∈ (run_extraction cfg oracle planned st0 names).ec)
    ∧ (∀ raw, oracle sheet = .ok raw →
        dictLookup (run_extraction cfg oracle planned st0 names).extracted sheet
          = some (.dict (coerce_types sheet (pyOrEmptyDict raw) spec true).1)) := by
  obtain ⟨l1, l2, rfl⟩ := List.append_of_mem hmem
  have hnd' := List.nodup_append.mp hnd
  have hs1 : sheet ∉ l1 := fun hh => hnd'.2.2 hh (List.mem_cons_self sheet l2)
  have hs2 : sheet ∉ l2 := (List.nodup_cons.mp hnd'.2.1).1
  have hsplit : run_extraction cfg oracle planned st0 (l1 ++ sheet :: l2)
      = run_extraction cfg oracle planned
          (extractSheetStep cfg oracle planned (run_extraction cfg oracle planned st0 l1) sheet)
          l2 := by
    simp [run_extraction, List.foldl_append]
  have hmid : dictLookup (run_extraction cfg oracle planned st0 l1).extracted sheet
      = Option.none := by
    rw [run_extraction_extracted_notmem cfg oracle planned st0 l1 sheet hs1]
    exact h0
  constructor
  · intro e he
    constructor
    · rw [hsplit, run_extraction_extracted_notmem cfg oracle planned _ l2 sheet hs2]
      simpa [extractSheetStep, hcfg, hpl, he] using hmid
    · rw [hsplit]
      obtain ⟨l, hl⟩ := run_extraction_ec_extends cfg oracle planned
        (extractSheetStep cfg oracle planned (run_extraction cfg oracle planned st0 l1) sheet) l2
      rw [hl]
      refine List.mem_append.mpr (Or.inl ?_)
      simp [extractSheetStep, hcfg, hpl, he, ecAdd]
  · intro raw hr
    rw [hsplit, run_extraction_extracted_notmem cfg oracle planned _ l2 sheet hs2]
    simp [extractSheetStep, hcfg, hpl, hr, dictLookup_dictSet_self]

/-- C7 witness: in a two-sheet workbook, the sheet whose extraction raises is
absent from the namespace with the `EXTRACT:` error recorded, while the
sheet that succeeds is present with its coerced mapping. -/
theorem sheet_extraction_atomic_insertion_witness :
    dictLookup (run_extraction [("A", [("X", "number")]), ("B", [("X", "string")])]
        (fun s => if s = "A" then .error "boom" else .ok (some [("X", .str "1")]))
        [] ⟨[], [], []⟩ ["A", "B"]).extracted "A" = Option.none
    ∧ (⟨"error", "EXTRACT:" ++ "A", "extraction failed: " ++ "boom", some "boom"⟩ : DiagRec)
        ∈ (run_extraction [("A", [("X", "number")]), ("B", [("X", "string")])]
            (fun s => if s = "A" then .error "boom" else .ok (some [("X", .str "1")]))
            [] ⟨[], [], []⟩ ["A", "B"]).ec
    ∧ dictLookup (run_extraction [("A", [("X", "number")]), ("B", [("X", "string")])]
        (fun s => if s = "A" then .error "boom" else .ok (some [("X", .str "1")]))
        [] ⟨[], [], []⟩ ["A", "B"]).extracted "B"
      = some (.dict (coerce_types "B" (pyOrEmptyDict (some [("X", .str "1")]))
          [("X", "string")] true).1) := by
  have TA := sheet_extraction_atomic_insertion
    [("A", [("X", "number")]), ("B", [("X", "string")])]
    (fun s => if s = "A" then .error "boom" else .ok (some [("X", .str "1")]))
    [] ⟨[], [], []⟩ ["A", "B"] "A" [("X", "number")]
    (by decide) (by decide) (by decide) (by decide) (by decide)
  have TB := sheet_extraction_atomic_insertion
    [("A", [("X", "number")]), ("B", [("X", "string")])]
    (fun s => if s = "A" then .error "boom" else .ok (some [("X", .str "1")]))
    [] ⟨[], [], []⟩ ["A", "B"] "B" [("X", "string")]
    (by decide) (by decide) (by decide) (by decide) (by decide)
  exact ⟨(TA.1 "boom" rfl).1, (TA.1 "boom" rfl).2,
    TB.2 (some [("X", .str "1")]) rfl⟩

/-! ## Claim C9 — processing order -/

/-- Whether an oracle call models a non-raising extraction. -/
def exceptOk {ε α : Type} : Except ε α → Bool
  | .ok _ => true
  | .error _ => false

/-- Whether one workbook sheet gets inserted by the extraction loop:
configured, not skip-planned, and its extraction does not raise. -/
def sheetProcessed (cfg : SheetCfg) (oracle : String → Except String (Option Dict))
    (planned : List String) (s : String) : Bool :=
  (dictLookup cfg s).isSome && !planned.contains s && exceptOk (oracle s)

theorem map_fst_dictSet_present {α : Type} (d : List (String × α)) (k : String) (v : α)
    (h : (dictLookup d k).isSome) : (dictSet d k v).map Prod.fst = d.map Prod.fst := by
  induction d with
  | nil => simp [dictLookup] at h
  | cons hd tl ih =>
    obtain ⟨k0, v0⟩ := hd
    by_cases h0 : k0 = k
    · simp [dictSet, h0]
    · simp only [dictLookup, h0, if_false] at h
      simp [dictSet, h0, ih h]

theorem run_extraction_key_order_aux (cfg : SheetCfg)
    (oracle : String → Except String (Option Dict)) (planned : List String) :
    ∀ (names : List String), names.Nodup →
    ∀ st : EState, (∀ s ∈ names, dictLookup st.extracted s = Option.none) →
    ((run_extraction cfg oracle planned st names).extracted).map Prod.fst
      = st.extracted.map Prod.fst ++ names.filter (sheetProcessed cfg oracle planned) := by
  intro names
  induction names with
  | nil =>
    intro _ st _
    simp [run_extraction]
  | cons n rest ih =>
    intro hnd st h
    obtain ⟨hn_rest, hnd_rest⟩ := List.nodup_cons.mp hnd
    have hn : dictLookup st.extracted n = Option.none := h n (List.mem_cons_self n rest)
    have hrun : run_extraction cfg oracle planned st (n :: rest)
        = run_extraction cfg oracle planned (extractSheetStep cfg oracle planned st n) rest := rfl
    rw [hrun]
    cases hc : dictLookup cfg n with
    | none =>
      have hex : (extractSheetStep cfg oracle planned st n).extracted = st.extracted := by
        simp [extractSheetStep, hc]
      have hf : sheetProcessed cfg oracle planned n = false := by
        simp [sheetProcessed, hc]
      rw [ih hnd_rest _ (fun s hs => by rw [hex]; exact h s (List.mem_cons_of_mem n hs)), hex]
      simp [List.filter_cons, hf]
    | some spec =>
      by_cases hp : n ∈ planned
      · have hex : (extractSheetStep cfg oracle planned st n).extracted = st.extracted := by
          simp [extractSheetStep, hc, hp]
        have hf : sheetProcessed cfg oracle planned n = false := by
          simp [sheetProcessed, hc, hp]
        rw [ih hnd_rest _ (fun s hs => by rw [hex]; exact h s (List.mem_cons_of_mem n hs)), hex]
        simp [List.filter_cons, hf]
      · cases ho : oracle n with
        | error e =>
          have hex : (extractSheetStep cfg oracle planned st n).extracted = st.extracted := by
            simp [extractSheetStep, hc, hp, ho]
          have hf : sheetProcessed cfg oracle planned n = false := by
            simp [sheetProcessed, hc, hp, ho, exceptOk]
          rw [ih hnd_rest _ (fun s hs => by rw [hex]; exact h s (List.mem_cons_of_mem n hs)),
            hex]
          simp [List.filter_cons, hf]
        | ok raw =>
          have hex : (extractSheetStep cfg oracle planned st n).extracted
              = dictSet st.extracted n
                  (.dict (coerce_types n (pyOrEmptyDict raw) spec true).1) := by
            simp [extractSheetStep, hc, hp, ho]
          have hf : sheetProcessed cfg oracle planned n = true := by
            simp [sheetProcessed, hc, hp, ho, exceptOk]
          have hinv : ∀ s ∈ rest,
              dictLookup (extractSheetStep cfg oracle planned st n).extracted s
                = Option.none := by
            intro s hs
            rw [hex, dictLookup_dictSet_ne _ _ _ _ (fun hh : s = n => hn_rest (hh ▸ hs))]
            exact h s (List.mem_cons_of_mem n hs)
          rw [ih hnd_rest _ hinv, hex, map_fst_dictSet_fresh _ _ _ hn]
          simp [List.filter_cons, hf]

theorem fill_fold_gen_ctx (pid : String) (missing : List String) (st : PState) :
    (missing.foldl (fun s m =>
        { extracted := ensure_path_set s.extracted m (.str "-"), gen_ctx := s.gen_ctx,
          ec := ecAdd s.ec "warn" ("FILL:" ++ pid)
            ("missing " ++ m ++ ", filled with default dash") Option.none : PState }) st).gen_ctx
      = st.gen_ctx := by
  induction missing generalizing st with
  | nil => rfl
  | cons m rest ih =>
    simp only [List.foldl_cons]
    exact ih _

theorem paragraphStep_gen_ctx_keys (g : String → Dict → Except String String)
    (planned : List String) (st : PState) (task : ParaTask) :
    ((paragraphStep g planned st task).gen_ctx).map Prod.fst = st.gen_ctx.map Prod.fst
    ∨ ((paragraphStep g planned st task).gen_ctx).map Prod.fst
        = st.gen_ctx.map Prod.fst ++ [task.pid] := by
  by_cases hp : task.pid ∈ planned
  · left
    simp [paragraphStep, hp]
  · by_cases hmode : (task.mode == "generate") = true
    · by_cases hm : (task.keys.filter
          (fun k => (resolve k st.extracted .none true).isNone)).isEmpty
      · cases hg : g task.pid st.extracted with
        | ok content =>
          by_cases hpid : (dictLookup st.gen_ctx task.pid).isSome
          · left
            simp [paragraphStep, hp, hm, hmode, hg, map_fst_dictSet_present _ _ _ hpid]
          · right
            have hfresh : dictLookup st.gen_ctx task.pid = Option.none := by
              cases hd : dictLookup st.gen_ctx task.pid
              · rfl
              · rw [hd] at hpid
                simp at hpid
            simp [paragraphStep, hp, hm, hmode, hg, map_fst_dictSet_fresh _ _ _ hfresh]
        | error e =>
          left
          simp [paragraphStep, hp, hm, hmode, hg]
      · left
        simp [paragraphStep, hp, hm, hmode]
    · left
      have hfalse : (task.mode == "generate") = false := by simpa using hmode
      simp only [paragraphStep, List.elem_eq_mem, decide_eq_true_eq, if_neg hp, hfalse,
        Bool.and_false, Bool.false_eq_true, if_false]
      rw [fill_fold_gen_ctx]

theorem run_paragraphs_gen_ctx_order (g : String → Dict → Except String String)
    (planned : List String) (tasks : List ParaTask) :
    ∀ st : PState, ∃ l, ((run_paragraphs g planned st tasks).gen_ctx).map Prod.fst
      = st.gen_ctx.map Prod.fst ++ l ∧ l.Sublist (tasks.map ParaTask.pid) := by
  induction tasks with
  | nil =>
    intro st
    exact ⟨[], by simp [run_paragraphs], List.nil_sublist _⟩
  | cons t rest ih =>
    intro st
    have hrun : run_paragraphs g planned st (t :: rest)
        = run_paragraphs g planned (paragraphStep g planned st t) rest := rfl
    obtain ⟨l, hl, hs⟩ := ih (paragraphStep g planned st t)
    rcases paragraphStep_gen_ctx_keys g planned st t with h | h
    · refine ⟨l, ?_, hs.cons t.pid⟩
      rw [hrun, hl, h]
    · refine ⟨t.pid :: l, ?_, hs.cons₂ t.pid⟩
      rw [hrun, hl, h, List.append_assoc]
      rfl

/-- C9 counterexample: with sheet-task configuration order `A, B` but
workbook sheet order `B, A`, the namespace insertion order follows the
workbook, not the configuration. -/
theorem sheet_order_follows_workbook_not_config :
    ((run_extraction [("A", [("X", "string")]), ("B", [("X", "string")])]
        (fun _ => .ok (some [])) [] ⟨[], [], []⟩ ["B", "A"]).extracted).map Prod.fst
      = ["B", "A"]
    ∧ ([("A", [("X", "string")]), ("B", [("X", "string")])] : SheetCfg).map Prod.fst = ["A", "B"]
    ∧ (["B", "A"] : List String) ≠ ["A", "B"] := by decide

/-- C9 (amended): sheets are processed one at a time in the order of the
workbook's sheet list — not the sheet-task configuration order when the two
differ — so the namespace key order is the workbook order restricted to
configured, unplanned, successfully extracted sheets; paragraphs are
processed one at a time in paragraph-task configuration order, so the
generated-text mapping's key order is a subsequence of the configured
paragraph order. -/
theorem processing_order_characterization (cfg : SheetCfg)
    (oracle : String → Except String (Option Dict)) (planned : List String)
    (names : List String) (ec0 : List DiagRec) (ws0 : List String)
    (g : String → Dict → Except String String) (plannedP : List String)
    (pst : PState) (tasks : List ParaTask)
    (hnd : names.Nodup) :
    ((run_extraction cfg oracle planned ⟨[], ec0, ws0⟩ names).extracted).map Prod.fst
      = names.filter (sheetProcessed cfg oracle planned)
    ∧ ∃ l, ((run_paragraphs g plannedP pst tasks).gen_ctx).map Prod.fst
        = pst.gen_ctx.map Prod.fst ++ l ∧ l.Sublist (tasks.map ParaTask.pid) := by
  refine ⟨?_, run_paragraphs_gen_ctx_order g plannedP tasks pst⟩
  have haux := run_extraction_key_order_aux cfg oracle planned names hnd ⟨[], ec0, ws0⟩
    (fun s _ => rfl)
  simpa using haux

/-- C9 witness: a concrete two-sheet, two-paragraph run instantiating the
order characterisation. -/
theorem processing_order_characterization_witness :
    ((run_extraction [("A", [("X", "string")]), ("B", [("X", "string")])]
        (fun _ => .ok (some [])) [] ⟨[], [], []⟩ ["B", "A"]).extracted).map Prod.fst
      = ["B", "A"].filter (sheetProcessed [("A", [("X", "string")]), ("B", [("X", "string")])]
          (fun _ => .ok (some [])) [])
    ∧ ∃ l, ((run_paragraphs (fun _ _ => .ok "t") [] ⟨[], [], []⟩
        [⟨"p1", "fill", []⟩, ⟨"p2", "generate", []⟩]).gen_ctx).map Prod.fst
        = (⟨[], [], []⟩ : PState).gen_ctx.map Prod.fst ++ l
        ∧ l.Sublist ([⟨"p1", "fill", []⟩, ⟨"p2", "generate", []⟩].map ParaTask.pid) :=
  processing_order_characterization [("A", [("X", "string")]), ("B", [("X", "string")])]
    (fun _ => .ok (some [])) [] ["B", "A"] [] [] (fun _ _ => .ok "t") [] ⟨[], [], []⟩
    [⟨"p1", "fill", []⟩, ⟨"p2", "generate", []⟩] (by decide)

end ReportGen
